import Mathlib

set_option maxHeartbeats 1000000

/-
Verification development for torch/export/_draft_export.py: the draft-export
diagnostic report pipeline (structured-log capture, failure classification and
deduplication, report aggregation, rendering, and the one-retry orchestrator).
All definitions below are shallow embeddings of the Python source; `Spec`-suffixed
definitions restate the documented behaviour for comparison.
-/

namespace DraftExport

/-! ## Python helpers: slices and substring tests -/

/-- Python-style clamping of a (possibly negative) slice endpoint against a list
of length `len`: a negative index counts from the end and clamps at 0, a
nonnegative index clamps at `len`. -/
def pyIndex (len : Nat) (i : Int) : Nat :=
  if i < 0 then ((len : Int) + i).toNat else min i.toNat len

/-- Python slice `l[a:b]` with Python's negative-index and clamping semantics. -/
def pySlice {α : Type} (l : List α) (a b : Int) : List α :=
  (l.take (pyIndex l.length b)).drop (pyIndex l.length a)

/-- Does the first list start with the second one? -/
def listStartsWith : List Char → List Char → Bool
  | _, [] => true
  | [], _ :: _ => false
  | a :: as, b :: bs => a == b && listStartsWith as bs

/-- Does the second list contain the first as a contiguous sublist? -/
def listContains (needle : List Char) : List Char → Bool
  | [] => listStartsWith [] needle
  | c :: t => listStartsWith (c :: t) needle || listContains needle t

/-- Python substring test: `strContains hay needle` is Python's `needle in hay`. -/
def strContains (hay needle : String) : Bool :=
  listContains needle.toList hay.toList

/-! ## Data model (torch/export/_draft_export.py) -/

/-- One frame of a structured-log stack trace: `{"filename": ..., "line": ...,
"name": ...}` where `filename` is the interned filename id rendered as a string. -/
structure StackFrame where
  filename : String
  line : Nat
  name : String
deriving DecidableEq

/-- Opaque dynamic-shapes specification (the `dynamic_shapes` argument and the
result of `refine_dynamic_shapes_from_suggested_fixes`), carried around
uninterpreted; `spec` is its rendering. -/
structure DynShapes where
  spec : String
deriving DecidableEq

/-- Metadata dictionary of one captured structured-log event.  The Python source
uses an open `dict[str, Any]`; the fields below are exactly the keys the
pipeline reads or writes (`stack`, `symbol_to_sources`, `op`, `reason`, `expr`,
`result`, `occurrences`, `new_dynamic_shapes`). -/
structure LogContents where
  stack : List StackFrame := []
  symbol_to_sources : List String := []
  op : String := ""
  reason : String := ""
  expr : String := ""
  result : String := ""
  occurrences : Nat := 0
  new_dynamic_shapes : Option DynShapes := none
deriving DecidableEq

/-- `FailureType(IntEnum)` from the source. -/
inductive FailureType where
  | MISSING_FAKE_KERNEL
  | DATA_DEPENDENT_ERROR
  | CONSTRAINT_VIOLATION_ERROR
  | MISMATCHED_FAKE_KERNEL
deriving DecidableEq

/-- The `IntEnum` value of each `FailureType`. -/
def FailureType.rank : FailureType → Nat
  | .MISSING_FAKE_KERNEL => 1
  | .DATA_DEPENDENT_ERROR => 2
  | .CONSTRAINT_VIOLATION_ERROR => 3
  | .MISMATCHED_FAKE_KERNEL => 4

/-- `FailureReport` from the source: a failure type, its payload, and the
`xfail` (suppressed / expected-failure) flag, defaulting to `False`. -/
structure FailureReport where
  failure_type : FailureType
  data : LogContents
  xfail : Bool := false
deriving DecidableEq

/-- `DraftExportReport` from the source: the ordered failure list plus the
interned-id-to-path side table (modelled as an association list). -/
structure DraftExportReport where
  failures : List FailureReport
  str_to_filename : List (String × String)
deriving DecidableEq

/-- `DraftExportReport.successful`: `len(self.failures) == 0 or all(failure.xfail
for failure in self.failures)`. -/
def DraftExportReport.successful (r : DraftExportReport) : Bool :=
  r.failures.length == 0 || r.failures.all (fun failure => failure.xfail)

/-! ## Stack filtering, hashing, rendering -/

/-- A frame is a "user" frame when its interned filename id is present in the
side table and the resolved path does not contain the framework's own directory
prefix `torch_filepath` (the body of the two tests in `filter_stack`). -/
def isUserFrame (stf : List (String × String)) (torch_filepath : String)
    (s : StackFrame) : Bool :=
  match List.lookup s.filename stf with
  | none => false
  | some path => !(strContains path torch_filepath)

/-- Loop body of `filter_stack`: scan the reversed stack with index `i`; at the
first user frame return the Python slice `stack[len(stack)-i-3 : len(stack)-i]`;
if the scan finishes, return `stack[-3:]`. -/
def filterStackGo (stf : List (String × String)) (torch_filepath : String)
    (stack : List StackFrame) : Nat → List StackFrame → List StackFrame
  | _, [] => pySlice stack (-3 : Int) (stack.length : Int)
  | i, s :: rest =>
    if isUserFrame stf torch_filepath s then
      pySlice stack ((stack.length : Int) - (i : Int) - 3)
        ((stack.length : Int) - (i : Int))
    else
      filterStackGo stf torch_filepath stack (i + 1) rest

/-- `filter_stack(stack, str_to_filename)` from the source, with the
environment-dependent `torch_filepath` (directory of the framework's own
sources) passed explicitly. -/
def filter_stack (stack : List StackFrame) (stf : List (String × String))
    (torch_filepath : String) : List StackFrame :=
  filterStackGo stf torch_filepath stack 0 stack.reverse

/-- The piece of `hash_stack`'s f-string for one frame. -/
def frameHashStr (s : StackFrame) : String :=
  "line: " ++ toString s.line ++ " filename: " ++ s.filename

/-- `hash_stack`: semicolon-joined `line:`/`filename:` rendering of the stack. -/
def hash_stack (stack : List StackFrame) : String :=
  String.intercalate (";") (stack.map frameHashStr)

/-- `prettify_stack`: renders each frame whose interned filename resolves in the
side table, skipping the others. -/
def prettify_stack (stack : List StackFrame) (stf : List (String × String)) :
    String :=
  stack.foldl
    (fun res frame =>
      match List.lookup frame.filename stf with
      | none => res
      | some path =>
        res ++ "\n        File " ++ path ++ ", lineno " ++ toString frame.line
          ++ ", in " ++ frame.name)
    ("")

/-- `get_loc(filename, lineno)`: read the `lineno`-th (1-based) line of the file
and strip it; `none` when the file cannot be read (`FileNotFoundError`) or has
no such line.  The filesystem is modelled as a partial map from path to the
list of lines. -/
def get_loc (fs : String → Option (List String)) (filename : String)
    (lineno : Nat) : Option String :=
  match fs filename with
  | none => none
  | some lines =>
    if lineno = 0 then none
    else (lines[lineno - 1]?).map (fun line => line.trim)

/-- Python `str()` of an `Optional[str]`: `None` renders as the string "None". -/
def pyStrOpt : Option String → String
  | none => "None"
  | some s => s

/-- Body of the `DATA_DEPENDENT_ERROR` branch of `FailureReport.print`, given
the already-rendered source-location fragment `loc`. -/
def ddTemplate (d : LogContents) (stf : List (String × String)) (loc : String) :
    String :=
  "Data dependent error.\n    When exporting, we were unable to evaluate the value of `"
    ++ d.expr
    ++ "`.\n    This was encountered "
    ++ toString d.occurrences
    ++ " times.\n    This occurred at the following stacktrace: "
    ++ prettify_stack d.stack stf
    ++ ":\n        "
    ++ loc
    ++ "\n    As a result, it was specialized to a constant (e.g. `"
    ++ d.result
    ++ "` in the 1st occurrence), and asserts were inserted into the graph.\n\n    Please add `torch._check(...)` to the original code to assert this data-dependent assumption.\n    Please refer to https://docs.google.com/document/d/1kZ_BbB3JnoLbUZleDT6635dHs88ZVYId8jT-yTFgf3A/edit#heading=h.boi2xurpqa0o for more details.\n"

/-- Python `str()` of an `Optional[DynShapes]`. -/
def pyStrShapes : Option DynShapes → String
  | none => "None"
  | some ns => ns.spec

/-- `FailureReport.print(str_to_filename)`, with the filesystem passed
explicitly for the `get_loc` call.  An uncaught `KeyError` (last frame's
interned filename missing from the side table in the data-dependent branch) is
modelled as `Except.error`. -/
def FailureReport.print (f : FailureReport) (stf : List (String × String))
    (fs : String → Option (List String)) : Except String String :=
  match f.failure_type with
  | FailureType.MISSING_FAKE_KERNEL =>
    Except.ok
      ("Missing fake kernel.\n    torch.ops."
        ++ f.data.op
        ++ " is missing a fake kernel implementation.\n\n    Please refer to https://docs.google.com/document/d/1_W62p8WJOQQUzPsJYa7s701JXt0qf2OfLub2sbkHOaU/edit#heading=h.ahugy69p2jmz for more detailed instructions on how to write a meta implementation.\n")
  | FailureType.CONSTRAINT_VIOLATION_ERROR =>
    Except.ok
      ("Constraint violation error.\n    The specified input dynamic_shapes spec was found to be incorrect during tracing.\n    Specifically, this guard was added: "
        ++ f.data.expr
        ++ ", where "
        ++ String.intercalate (", ") f.data.symbol_to_sources
        ++ ".\n    This occured at the following stacktrace: "
        ++ prettify_stack f.data.stack stf
        ++ ".\n    Because of this, we have modified the dynamic shapes structure to be the\n    following. You can also use torch.export.Dim.AUTO instead to specify your\n    dynamic shapes, and we will automatically infer the dynamism for you.\n    ```\n    dynamic_shapes = "
        ++ pyStrShapes f.data.new_dynamic_shapes
        ++ "\n    ```\n")
  | FailureType.DATA_DEPENDENT_ERROR =>
    match f.data.stack.getLast? with
    | none => Except.ok (ddTemplate f.data stf (pyStrOpt none))
    | some frame =>
      match List.lookup frame.filename stf with
      | none => Except.error ("KeyError: " ++ frame.filename)
      | some path =>
        Except.ok
          (ddTemplate f.data stf
            ("`" ++ pyStrOpt (get_loc fs path frame.line) ++ "`"))
  | FailureType.MISMATCHED_FAKE_KERNEL =>
    Except.ok
      ("Mismatched fake kernel.\n    torch.ops."
        ++ f.data.op
        ++ " has a fake kernel implementation, but it has incorrect behavior, based on the real kernel.\n    The reason for the mismatch is: "
        ++ f.data.reason
        ++ ".\n\n    Please refer to https://docs.google.com/document/d/1_W62p8WJOQQUzPsJYa7s701JXt0qf2OfLub2sbkHOaU/edit#heading=h.ahugy69p2jmz for more detailed instructions on how to write a fake implementation.\n")

/-! ## Structured log capture (CaptureStructuredTrace) -/

/-- One structured-log record delivered to `CaptureStructuredTrace.emit`: its
`metadata` dictionary, modelled as an association list. -/
structure StructuredRecord where
  metadata : List (String × LogContents)

/-- The process-wide state `CaptureStructuredTrace` mutates: the
`GET_DTRACE_STRUCTURED` flag and the handler list of the `torch.__trace`
logger (handlers identified by an id). -/
structure TraceGlobalState where
  get_dtrace_structured : Bool
  handlers : List Nat
deriving DecidableEq

/-- The mutable state of a `CaptureStructuredTrace` handler object. -/
structure CaptureStructuredTrace where
  specific_log_keys : List String
  logs : List (String × LogContents)
  prev_get_dtrace : Bool
deriving DecidableEq

/-- `logging.Logger.addHandler`: append the handler if not already present. -/
def addHandler (handlers : List Nat) (hid : Nat) : List Nat :=
  if hid ∈ handlers then handlers else handlers ++ [hid]

/-- `logging.Logger.removeHandler`: remove the first occurrence if present. -/
def removeHandler (handlers : List Nat) (hid : Nat) : List Nat :=
  handlers.erase hid

/-- `CaptureStructuredTrace.__enter__`: clear the log buffer, register the
handler, save the prior `GET_DTRACE_STRUCTURED` flag, and set it to `True`. -/
def captureEnter (hid : Nat) (h : CaptureStructuredTrace) (g : TraceGlobalState) :
    CaptureStructuredTrace × TraceGlobalState :=
  ({ h with logs := [], prev_get_dtrace := g.get_dtrace_structured },
   { handlers := addHandler g.handlers hid, get_dtrace_structured := true })

/-- `CaptureStructuredTrace.__exit__`: clear the log buffer, remove the handler,
restore `GET_DTRACE_STRUCTURED` from the saved flag, and reset the saved flag. -/
def captureExit (hid : Nat) (h : CaptureStructuredTrace) (g : TraceGlobalState) :
    CaptureStructuredTrace × TraceGlobalState :=
  ({ h with logs := [], prev_get_dtrace := false },
   { handlers := removeHandler g.handlers hid,
     get_dtrace_structured := h.prev_get_dtrace })

/-- `CaptureStructuredTrace.emit`: for each allow-listed key present in the
record's metadata, append `(key, metadata[key])` to the log buffer. -/
def CaptureStructuredTrace.emit (h : CaptureStructuredTrace)
    (record : StructuredRecord) : CaptureStructuredTrace :=
  { h with
    logs := h.logs ++ h.specific_log_keys.filterMap
      (fun key => (List.lookup key record.metadata).map (fun m => (key, m))) }

/-- The `with capture_structured_log:` block: Python's `with` statement runs
`__enter__`, then the body, then `__exit__` on every exit path (the body's
outcome — normal return or raised exception — is an `Except` that is threaded
through unchanged).  The body interacts with the handler only by emitting
structured records, and may mutate the global state arbitrarily. -/
def withCapture {ε α : Type} (hid : Nat) (h : CaptureStructuredTrace)
    (g : TraceGlobalState)
    (body : TraceGlobalState → TraceGlobalState × List StructuredRecord × Except ε α) :
    CaptureStructuredTrace × TraceGlobalState × Except ε α :=
  let eg := captureEnter hid h g
  let br := body eg.2
  let h2 := br.2.1.foldl CaptureStructuredTrace.emit eg.1
  let ex := captureExit hid h2 br.1
  (ex.1, ex.2, br.2.2)

/-! ## Failure classifier and deduplicator (the loop in draft_export) -/

/-- A captured event: `(log_name, log_contents)`. -/
abbrev Event := String × LogContents

/-- Keys of the `custom_ops_logs` dict.  In Python the keys are either the op
string (missing kernels) or the `(op, reason)` tuple (mismatched kernels); a
string never equals a tuple, so the two constructors are disjoint. -/
inductive OpKey where
  | op (s : String)
  | opReason (s r : String)
deriving DecidableEq

/-- Mutable state of the classifier loop: the failure list, the keys of
`custom_ops_logs` (insertion order), and the `data_dependent_logs`
defaultdict. -/
structure ClassifyState where
  failures : List FailureReport
  custom_ops : List OpKey
  ddl : String → Nat

/-- `data_dependent_logs[h] += 1`. -/
def bumpCount (cnt : String → Nat) (h : String) : String → Nat :=
  fun k => if k = h then cnt k + 1 else cnt k

/-- One iteration of the classifier loop in `draft_export` (lines 287-338 of
the source): dispatch on the event key, filter stacks, dedup, and either skip
(`continue`), append a `FailureReport`, or raise on an unknown key. -/
def classifyStep (stf : List (String × String)) (torch_filepath : String)
    (new_shapes : Option DynShapes) (st : ClassifyState) (ev : Event) :
    Except String ClassifyState :=
  if ev.1 = "propagate_real_tensors" then
    let c := { ev.2 with stack := filter_stack ev.2.stack stf torch_filepath }
    let h := hash_stack c.stack
    let ddl := bumpCount st.ddl h
    if ddl h > 1 then
      Except.ok { st with ddl := ddl }
    else
      Except.ok { st with ddl := ddl, failures := st.failures ++ [⟨FailureType.DATA_DEPENDENT_ERROR, c, false⟩] }
  else if ev.1 = "guard_added" then
    match new_shapes with
    | none => Except.ok st
    | some ns =>
      if ev.2.symbol_to_sources.length = 0 then
        Except.ok st
      else
        let c := { ev.2 with
          stack := filter_stack ev.2.stack stf torch_filepath,
          new_dynamic_shapes := some ns }
        Except.ok { st with failures := st.failures ++ [⟨FailureType.CONSTRAINT_VIOLATION_ERROR, c, false⟩] }
  else if ev.1 = "missing_fake_kernel" then
    if OpKey.op ev.2.op ∈ st.custom_ops then
      Except.ok st
    else
      Except.ok { st with custom_ops := st.custom_ops ++ [OpKey.op ev.2.op], failures := st.failures ++ [⟨FailureType.MISSING_FAKE_KERNEL, ev.2, false⟩] }
  else if ev.1 = "mismatched_fake_kernel" then
    if OpKey.opReason ev.2.op ev.2.reason ∈ st.custom_ops then
      Except.ok st
    else
      Except.ok { st with custom_ops := st.custom_ops ++ [OpKey.opReason ev.2.op ev.2.reason], failures := st.failures ++ [⟨FailureType.MISMATCHED_FAKE_KERNEL, ev.2, false⟩] }
  else
    Except.error ("Unknown log name: " ++ ev.1)

/-- The classifier loop over the whole captured event list. -/
def classifyList (stf : List (String × String)) (torch_filepath : String)
    (new_shapes : Option DynShapes) :
    ClassifyState → List Event → Except String ClassifyState
  | st, [] => Except.ok st
  | st, ev :: rest =>
    match classifyStep stf torch_filepath new_shapes st ev with
    | Except.error e => Except.error e
    | Except.ok st1 => classifyList stf torch_filepath new_shapes st1 rest

/-- The backfill pass (source lines 340-345): write the final per-stack-hash
count into the `occurrences` payload field of every data-dependent record. -/
def backfillOccurrences (ddl : String → Nat) (failures : List FailureReport) :
    List FailureReport :=
  failures.map
    (fun failure =>
      if failure.failure_type = FailureType.DATA_DEPENDENT_ERROR then
        { failure with data :=
          { failure.data with occurrences := ddl (hash_stack failure.data.stack) } }
      else failure)

/-- The classification phase of `draft_export`: run the classifier loop from
the empty state over the captured logs, backfill occurrence counts, and build
the report. -/
def draftExportClassify (stf : List (String × String)) (torch_filepath : String)
    (new_shapes : Option DynShapes) (logs : List Event) :
    Except String DraftExportReport :=
  match classifyList stf torch_filepath new_shapes ⟨[], [], fun _ => 0⟩ logs with
  | Except.error e => Except.error e
  | Except.ok st => Except.ok ⟨backfillOccurrences st.ddl st.failures, stf⟩

/-! ## Orchestrator: the try/except around the two _export calls -/

/-- The result object of one `_export` call, opaque to this development. -/
structure ExportedProgram where
  graph : String
deriving DecidableEq

/-- Exceptions an `_export` attempt can raise: `torch._dynamo.exc.UserError`
(carrying its message) is the only kind the orchestrator catches. -/
inductive ExportExc where
  | userError (msg : String)
  | other (msg : String)
deriving DecidableEq

/-- The try/except block of `draft_export` (source lines 250-273).  `oracle n`
is the outcome of the `n`-th `_export` call and `refine` is
`refine_dynamic_shapes_from_suggested_fixes`.  Returns the final outcome
(program plus the refined shapes, `none` when no refinement ran) paired with
the list of dynamic-shape specs passed to the successive `_export` calls. -/
def draftExportRun (oracle : Nat → Except ExportExc ExportedProgram)
    (refine : String → DynShapes → DynShapes) (dynamic_shapes : DynShapes) :
    Except ExportExc (ExportedProgram × Option DynShapes) × List DynShapes :=
  match oracle 0 with
  | Except.ok ep => (Except.ok (ep, none), [dynamic_shapes])
  | Except.error (ExportExc.userError msg) =>
    let new_shapes := refine msg dynamic_shapes
    match oracle 1 with
    | Except.ok ep => (Except.ok (ep, some new_shapes), [dynamic_shapes, new_shapes])
    | Except.error e => (Except.error e, [dynamic_shapes, new_shapes])
  | Except.error e => (Except.error e, [dynamic_shapes])

/-! ## Specification-side definitions (restating the documented behaviour) -/

/-- The everywhere-zero counter, the initial value of `data_dependent_logs`. -/
def zeroCnt : String → Nat := fun _ => 0

/-- First-occurrence deduplication relative to an already-seen list: keeps the
first occurrence of each element not yet seen, in order. -/
def dedupFirst {α : Type} [DecidableEq α] : List α → List α → List α
  | _, [] => []
  | seen, a :: as =>
    if a ∈ seen then dedupFirst seen as else a :: dedupFirst (seen ++ [a]) as

/-- The data-dependent-error records of a failure list, in order. -/
def ddRecords (fs : List FailureReport) : List FailureReport :=
  fs.filter (fun f => decide (f.failure_type = FailureType.DATA_DEPENDENT_ERROR))

/-- The missing-fake-kernel records of a failure list, in order. -/
def missingRecords (fs : List FailureReport) : List FailureReport :=
  fs.filter (fun f => decide (f.failure_type = FailureType.MISSING_FAKE_KERNEL))

/-- The mismatched-fake-kernel records of a failure list, in order. -/
def mismatchedRecords (fs : List FailureReport) : List FailureReport :=
  fs.filter (fun f => decide (f.failure_type = FailureType.MISMATCHED_FAKE_KERNEL))

/-- Is a failure type one of the two kernel-related kinds? -/
def isKernelType (t : FailureType) : Bool :=
  decide (t = FailureType.MISSING_FAKE_KERNEL)
    || decide (t = FailureType.MISMATCHED_FAKE_KERNEL)

/-- The kernel-related records of a failure list, in order. -/
def kernelRecords (fs : List FailureReport) : List FailureReport :=
  fs.filter (fun f => isKernelType f.failure_type)

/-- The contents of the `propagate_real_tensors` events of a capture, each with
its stack already filtered, in emission order. -/
def propFiltered (stf : List (String × String)) (tp : String)
    (evs : List Event) : List LogContents :=
  (evs.filter (fun ev => decide (ev.1 = "propagate_real_tensors"))).map
    (fun ev => { ev.2 with stack := filter_stack ev.2.stack stf tp })

/-- The dedup keys (filtered-stack hashes) of the `propagate_real_tensors`
events of a capture, in emission order. -/
def propHashes (stf : List (String × String)) (tp : String)
    (evs : List Event) : List String :=
  (propFiltered stf tp evs).map (fun c => hash_stack c.stack)

/-- Build a data-dependent-error record, as the classifier loop does. -/
def mkDD (c : LogContents) : FailureReport :=
  ⟨FailureType.DATA_DEPENDENT_ERROR, c, false⟩

/-- The dedup key of a record: the hash of its (filtered) stack. -/
def recHash (f : FailureReport) : String :=
  hash_stack f.data.stack

/-- First occurrences by stack hash of a list of (already filtered) event
contents, relative to a counter of previously seen hashes: mirrors the
documented first-occurrence rule for data-dependent errors. -/
def ddFirsts (cnt : String → Nat) : List LogContents → List LogContents
  | [] => []
  | c :: cs =>
    if bumpCount cnt (hash_stack c.stack) (hash_stack c.stack) > 1 then
      ddFirsts (bumpCount cnt (hash_stack c.stack)) cs
    else
      c :: ddFirsts (bumpCount cnt (hash_stack c.stack)) cs

/-- The documented shape of the data-dependent records produced by a full run:
one record per distinct filtered-stack hash, taken from the first occurrence in
order, whose `occurrences` field is the total number of events with that hash. -/
def ddSpecRecords (stf : List (String × String)) (tp : String)
    (logs : List Event) : List FailureReport :=
  (ddFirsts zeroCnt (propFiltered stf tp logs)).map
    (fun c => mkDD
      { c with occurrences := (propHashes stf tp logs).count (hash_stack c.stack) })

/-- The operator identifiers of the `missing_fake_kernel` events, in order. -/
def missingEvOps (evs : List Event) : List String :=
  (evs.filter (fun ev => decide (ev.1 = "missing_fake_kernel"))).map
    (fun ev => ev.2.op)

/-- The (operator, reason) pairs of the `mismatched_fake_kernel` events, in
order. -/
def mismatchedEvKeys (evs : List Event) : List (String × String) :=
  (evs.filter (fun ev => decide (ev.1 = "mismatched_fake_kernel"))).map
    (fun ev => (ev.2.op, ev.2.reason))

/-- The documented shape of the kernel-related records of a full run: first
event per dedup key wins, keys being the op for missing kernels and the
(op, reason) pair for mismatched ones, tracked in one shared key set. -/
def opFirsts : List OpKey → List Event → List FailureReport
  | _, [] => []
  | ops, ev :: rest =>
    if ev.1 = "missing_fake_kernel" then
      if OpKey.op ev.2.op ∈ ops then opFirsts ops rest
      else ⟨FailureType.MISSING_FAKE_KERNEL, ev.2, false⟩ :: opFirsts (ops ++ [OpKey.op ev.2.op]) rest
    else if ev.1 = "mismatched_fake_kernel" then
      if OpKey.opReason ev.2.op ev.2.reason ∈ ops then opFirsts ops rest
      else ⟨FailureType.MISMATCHED_FAKE_KERNEL, ev.2, false⟩ :: opFirsts (ops ++ [OpKey.opReason ev.2.op ev.2.reason]) rest
    else opFirsts ops rest

/-- The key set of `custom_ops_logs` after processing an event list. -/
def opsAfter : List OpKey → List Event → List OpKey
  | ops, [] => ops
  | ops, ev :: rest =>
    if ev.1 = "missing_fake_kernel" then
      if OpKey.op ev.2.op ∈ ops then opsAfter ops rest
      else opsAfter (ops ++ [OpKey.op ev.2.op]) rest
    else if ev.1 = "mismatched_fake_kernel" then
      if OpKey.opReason ev.2.op ev.2.reason ∈ ops then opsAfter ops rest
      else opsAfter (ops ++ [OpKey.opReason ev.2.op ev.2.reason]) rest
    else opsAfter ops rest

/-- The op strings among a key set (the keys a missing-kernel event tests). -/
def missingSeen (ops : List OpKey) : List String :=
  ops.filterMap (fun k => match k with | OpKey.op s => some s | _ => none)

/-- The (op, reason) pairs among a key set (the keys a mismatched-kernel event
tests). -/
def mismatchedSeen (ops : List OpKey) : List (String × String) :=
  ops.filterMap (fun k => match k with | OpKey.opReason s r => some (s, r) | _ => none)

/-! ## Concrete fixtures used by witnesses and counterexamples -/

/-- A user-code frame (interned id "0"). -/
def fU1 : StackFrame := ⟨"0", 10, "a"⟩

/-- A framework-internal frame (interned id "1", resolving under `tp0`). -/
def fI : StackFrame := ⟨"1", 20, "b"⟩

/-- Another user-code frame (interned id "2"). -/
def fU2 : StackFrame := ⟨"2", 30, "c"⟩

/-- A small interned-id-to-path side table. -/
def stf0 : List (String × String) :=
  [("0", "/home/user/a.py"), ("1", "/torch/lib/x.py"), ("2", "/home/user/b.py")]

/-- The framework's own directory prefix in the fixtures. -/
def tp0 : String := "/torch/"

/-- The initial classifier state of `draft_export`. -/
def st0 : ClassifyState := ⟨[], [], zeroCnt⟩

/-- Contents of a small data-dependent event. -/
def c0 : LogContents := { expr := "u0", result := "1" }

/-- Two equivalent `propagate_real_tensors` events. -/
def logs0 : List Event :=
  [("propagate_real_tensors", c0), ("propagate_real_tensors", c0)]

/-- The report produced from `logs0`: one record whose count is 2. -/
def rep0 : DraftExportReport :=
  ⟨[⟨FailureType.DATA_DEPENDENT_ERROR, { expr := "u0", result := "1", occurrences := 2 }, false⟩], []⟩

/-- Contents of a missing-kernel event. -/
def cm1 : LogContents := { op := "my::op" }

/-- Contents of a mismatched-kernel event with reason "r1". -/
def cm2 : LogContents := { op := "my::op", reason := "r1" }

/-- Contents of a mismatched-kernel event with the same op but reason "r2". -/
def cm3 : LogContents := { op := "my::op", reason := "r2" }

/-- Kernel events with duplicates: two missing for the same op, and three
mismatched among which two share the (op, reason) pair. -/
def logs1 : List Event :=
  [("missing_fake_kernel", cm1), ("missing_fake_kernel", cm1),
   ("mismatched_fake_kernel", cm2), ("mismatched_fake_kernel", cm3),
   ("mismatched_fake_kernel", cm2)]

/-- The report produced from `logs1`: three deduplicated records. -/
def rep1 : DraftExportReport :=
  ⟨[⟨FailureType.MISSING_FAKE_KERNEL, cm1, false⟩,
    ⟨FailureType.MISMATCHED_FAKE_KERNEL, cm2, false⟩,
    ⟨FailureType.MISMATCHED_FAKE_KERNEL, cm3, false⟩], []⟩

/-- A report with one unsuppressed failure. -/
def repC1 : DraftExportReport :=
  ⟨[⟨FailureType.MISSING_FAKE_KERNEL, cm1, false⟩], []⟩

/-- A refined dynamic-shapes spec. -/
def nsC3 : DynShapes := ⟨"dyn"⟩

/-- A `guard_added` event whose symbol-to-source mapping is non-empty. -/
def evG : Event := ("guard_added", { symbol_to_sources := ["s0"] })

/-- An export oracle whose first call raises `UserError` and whose second call
succeeds. -/
def oC8 : Nat → Except ExportExc ExportedProgram :=
  fun n => if n = 0 then Except.error (ExportExc.userError "fix") else Except.ok ⟨"g"⟩

/-- A shape-refinement function for the fixtures. -/
def refC8 : String → DynShapes → DynShapes :=
  fun m d => ⟨d.spec ++ ":" ++ m⟩

/-- The initial dynamic-shapes spec for the fixtures. -/
def dsC8 : DynShapes := ⟨"d"⟩

/-- A data-dependent record whose last (and only) stack frame is interned. -/
def fC9 : FailureReport :=
  ⟨FailureType.DATA_DEPENDENT_ERROR,
   { stack := [⟨"0", 5, "fn"⟩], expr := "e", result := "1", occurrences := 1 },
   false⟩

/-- A side table resolving the fixture frame to a (deleted) path. -/
def stfC9 : List (String × String) := [("0", "/gone/x.py")]

/-- A filesystem on which no file can be read. -/
def fsNone : String → Option (List String) := fun _ => none

/-- A capture handler fixture holding a stale log entry. -/
def hC7 : CaptureStructuredTrace := ⟨["guard_added"], [("stale", c0)], true⟩

/-- A global trace state fixture with two unrelated handlers. -/
def gC7 : TraceGlobalState := ⟨false, [1, 2]⟩

/-- A body that mutates the verbosity flag, emits one record, and raises. -/
def bodyC7 : TraceGlobalState → TraceGlobalState × List StructuredRecord × Except String Unit :=
  fun s => ({ s with get_dtrace_structured := false }, [⟨[("guard_added", c0)]⟩], Except.error "boom")

/-! ## C1: success predicate of the report -/

/-- C1: for every `DraftExportReport`, `successful()` returns true if and only
if its list of failure records is empty or every record has its suppressed
(`xfail`) flag set; in particular, a report containing at least one
unsuppressed record is unsuccessful. -/
theorem successful_iff_empty_or_all_xfail (r : DraftExportReport) :
    (r.successful = true ↔ (r.failures = [] ∨ ∀ f ∈ r.failures, f.xfail = true))
      ∧ (∀ f ∈ r.failures, f.xfail = false → r.successful = false) := by
  have hiff : r.successful = true ↔ (r.failures = [] ∨ ∀ f ∈ r.failures, f.xfail = true) := by
    simp [DraftExportReport.successful, List.all_eq_true, List.length_eq_zero]
  refine ⟨hiff, fun f hf hx => ?_⟩
  rw [Bool.eq_false_iff]
  intro ht
  rcases hiff.mp ht with he | hall
  · rw [he] at hf
    exact absurd hf (List.not_mem_nil f)
  · have := hall f hf
    rw [hx] at this
    exact Bool.false_ne_true this

/-- Witness for C1 at a concrete report with one unsuppressed record. -/
theorem successful_iff_empty_or_all_xfail_witness : repC1.successful = false :=
  (successful_iff_empty_or_all_xfail repC1).2
    ⟨FailureType.MISSING_FAKE_KERNEL, cm1, false⟩ (by decide) rfl

/-! ## C6: unknown event keys are fatal -/

/-- C6: an event whose key is none of `propagate_real_tensors`, `guard_added`,
`missing_fake_kernel`, `mismatched_fake_kernel` makes the classifier raise the
unknown-log-kind `RuntimeError` the moment the loop reaches it; it is never
silently ignored and never produces a record. -/
theorem unknown_log_name_fatal (stf : List (String × String)) (tp : String)
    (ns : Option DynShapes) (st : ClassifyState) (k : String) (c : LogContents)
    (rest : List Event)
    (h1 : k ≠ "propagate_real_tensors") (h2 : k ≠ "guard_added")
    (h3 : k ≠ "missing_fake_kernel") (h4 : k ≠ "mismatched_fake_kernel") :
    classifyStep stf tp ns st (k, c) = Except.error ("Unknown log name: " ++ k)
      ∧ classifyList stf tp ns st ((k, c) :: rest)
          = Except.error ("Unknown log name: " ++ k) := by
  have hstep : classifyStep stf tp ns st (k, c)
      = Except.error ("Unknown log name: " ++ k) := by
    simp [classifyStep, h1, h2, h3, h4]
  exact ⟨hstep, by simp [classifyList, hstep]⟩

/-- Witness for C6 at a concrete unknown key. -/
theorem unknown_log_name_fatal_witness :
    classifyList [] tp0 none st0 [("bogus", c0)]
      = Except.error ("Unknown log name: " ++ "bogus") :=
  (unknown_log_name_fatal [] tp0 none st0 "bogus" c0 []
    (by decide) (by decide) (by decide) (by decide)).2

/-! ## C10: the capture scope clears its event buffer -/

/-- C10: exiting the capture scope unconditionally clears the handler's
collected event list — on every exit path, since the body's outcome (normal or
raising) is arbitrary — and re-entering resets it to empty, so captured events
are observable only within the scope's dynamic extent. -/
theorem capture_scope_logs_cleared {ε α : Type} (hid : Nat)
    (h hx : CaptureStructuredTrace) (g gx : TraceGlobalState)
    (body : TraceGlobalState → TraceGlobalState × List StructuredRecord × Except ε α) :
    (withCapture hid h g body).1.logs = []
      ∧ (captureExit hid hx gx).1.logs = []
      ∧ (captureEnter hid h g).1.logs = [] :=
  ⟨rfl, rfl, rfl⟩

/-! ## C9: rendering a data-dependent record with an unreadable file -/

/-- C9: rendering a `DataDependentError` record whose last stack frame resolves
through the side table to a file that cannot be read from disk does not fail:
`get_loc` returns no source line and the rendered block shows the placeholder
`` `None` `` in its place. -/
theorem dd_render_no_location (f : FailureReport) (stf : List (String × String))
    (fs : String → Option (List String)) (frame : StackFrame) (path : String)
    (hty : f.failure_type = FailureType.DATA_DEPENDENT_ERROR)
    (hlast : f.data.stack.getLast? = some frame)
    (hpath : List.lookup frame.filename stf = some path)
    (hfs : fs path = none) :
    FailureReport.print f stf fs = Except.ok (ddTemplate f.data stf ("`None`")) := by
  simp [FailureReport.print, hty, hlast, hpath, get_loc, hfs, pyStrOpt]

/-- Witness for C9 at a concrete record whose file is absent from disk. -/
theorem dd_render_no_location_witness :
    FailureReport.print fC9 stfC9 fsNone
      = Except.ok (ddTemplate fC9.data stfC9 ("`None`")) :=
  dd_render_no_location fC9 stfC9 fsNone ⟨"0", 5, "fn"⟩ "/gone/x.py" rfl rfl rfl rfl

/-! ## C3: guard_added events -/

/-- C3: a `guard_added` event produces a `ConstraintViolation` record only if a
shape-refinement pass ran (`new_shapes` is not `none`) and the event's
`symbol_to_sources` mapping is non-empty; otherwise it is dropped entirely (the
classifier state is unchanged, so it contributes zero records); when a record
is produced, its payload carries the refined dynamic-shape spec. -/
theorem guard_added_rule (stf : List (String × String)) (tp : String)
    (ns : Option DynShapes) (st : ClassifyState) (ev : Event)
    (hk : ev.1 = "guard_added") :
    (∃ st1, classifyStep stf tp ns st ev = Except.ok st1)
      ∧ (∀ st1, classifyStep stf tp ns st ev = Except.ok st1 →
          ((ns = none ∨ ev.2.symbol_to_sources = []) → st1 = st)
            ∧ (∀ n, ns = some n → ev.2.symbol_to_sources ≠ [] →
                st1.failures = st.failures
                  ++ [⟨FailureType.CONSTRAINT_VIOLATION_ERROR,
                        { ev.2 with stack := filter_stack ev.2.stack stf tp, new_dynamic_shapes := some n }, false⟩])) := by
  obtain ⟨k, c⟩ := ev
  simp only at hk
  subst hk
  simp only [classifyStep, String.reduceEq, reduceIte]
  cases ns with
  | none =>
    refine ⟨⟨st, rfl⟩, fun st1 h1 => ?_⟩
    have h1' : st = st1 := by simpa using h1
    subst h1'
    exact ⟨fun _ => rfl, fun n hn => by cases hn⟩
  | some n0 =>
    by_cases hs : c.symbol_to_sources.length = 0
    · refine ⟨⟨st, by simp [hs]⟩, fun st1 h1 => ?_⟩
      have h1' : st = st1 := by simpa [hs] using h1
      subst h1'
      refine ⟨fun _ => rfl, fun n hn hne => ?_⟩
      exact absurd (List.length_eq_zero.mp hs) hne
    · refine ⟨⟨{ st with failures := st.failures ++ [⟨FailureType.CONSTRAINT_VIOLATION_ERROR, { c with stack := filter_stack c.stack stf tp, new_dynamic_shapes := some n0 }, false⟩] }, by simp [hs]⟩, fun st1 h1 => ?_⟩
      have h1' : ({ st with failures := st.failures ++ [⟨FailureType.CONSTRAINT_VIOLATION_ERROR, { c with stack := filter_stack c.stack stf tp, new_dynamic_shapes := some n0 }, false⟩] } : ClassifyState) = st1 := by
        simpa [hs] using h1
      subst h1'
      refine ⟨fun hdrop => ?_, fun n hn _ => ?_⟩
      · rcases hdrop with h | h
        · cases h
        · exact absurd (congrArg List.length h) (by simpa using hs)
      · cases hn
        rfl

/-- Witness for C3: a concrete `guard_added` event with refinement present and
a non-empty symbol-to-source mapping yields one constraint-violation record
carrying the refined spec. -/
theorem guard_added_rule_witness :
    (⟨[⟨FailureType.CONSTRAINT_VIOLATION_ERROR,
        { symbol_to_sources := ["s0"], new_dynamic_shapes := some nsC3 }, false⟩],
      ([] : List OpKey), zeroCnt⟩ : ClassifyState).failures
      = st0.failures
          ++ [⟨FailureType.CONSTRAINT_VIOLATION_ERROR,
                { evG.2 with stack := filter_stack evG.2.stack [] tp0, new_dynamic_shapes := some nsC3 }, false⟩] :=
  ((guard_added_rule [] tp0 (some nsC3) st0 evG rfl).2 _ rfl).2 nsC3 rfl
    (by decide)

/-! ## C8: the orchestrator's single retry -/

/-- C8: `draft_export` runs the export once; if and only if the first attempt
raises a `UserError`, it computes a refined spec from the error message and
retries exactly once with that spec; there is never a third call, a
non-`UserError` from the first attempt propagates without a retry, and an
exception raised by the second attempt propagates to the caller. -/
theorem draft_export_single_retry (oracle : Nat → Except ExportExc ExportedProgram)
    (refine : String → DynShapes → DynShapes) (ds : DynShapes) :
    ((draftExportRun oracle refine ds).2.length ≤ 2)
      ∧ ((draftExportRun oracle refine ds).2.head? = some ds)
      ∧ (∀ ep, oracle 0 = Except.ok ep →
          draftExportRun oracle refine ds = (Except.ok (ep, none), [ds]))
      ∧ ((draftExportRun oracle refine ds).2.length = 2
          ↔ ∃ msg, oracle 0 = Except.error (ExportExc.userError msg))
      ∧ (∀ msg, oracle 0 = Except.error (ExportExc.userError msg) →
          (draftExportRun oracle refine ds).2 = [ds, refine msg ds]
            ∧ (∀ e, oracle 1 = Except.error e →
                (draftExportRun oracle refine ds).1 = Except.error e)
            ∧ (∀ ep, oracle 1 = Except.ok ep →
                (draftExportRun oracle refine ds).1
                  = Except.ok (ep, some (refine msg ds))))
      ∧ (∀ msg, oracle 0 = Except.error (ExportExc.other msg) →
          draftExportRun oracle refine ds
            = (Except.error (ExportExc.other msg), [ds])) := by
  cases h0 : oracle 0 with
  | ok ep =>
    refine ⟨?_, ?_, ?_, ?_, ?_, ?_⟩ <;>
      simp_all [draftExportRun]
  | error e =>
    cases e with
    | userError msg =>
      cases h1 : oracle 1 with
      | ok ep2 =>
        refine ⟨?_, ?_, ?_, ?_, ?_, ?_⟩ <;>
          simp_all [draftExportRun]
      | error e2 =>
        refine ⟨?_, ?_, ?_, ?_, ?_, ?_⟩ <;>
          simp_all [draftExportRun]
    | other msg =>
      refine ⟨?_, ?_, ?_, ?_, ?_, ?_⟩ <;>
        simp_all [draftExportRun]

/-- Witness for C8: with a first attempt failing with `UserError` and a second
attempt succeeding, exactly two calls are made, the second with the refined
spec, and the result carries the refined spec. -/
theorem draft_export_single_retry_witness :
    (draftExportRun oC8 refC8 dsC8).2 = [dsC8, refC8 "fix" dsC8]
      ∧ (draftExportRun oC8 refC8 dsC8).1
          = Except.ok (⟨"g"⟩, some (refC8 "fix" dsC8)) :=
  ⟨((draft_export_single_retry oC8 refC8 dsC8).2.2.2.2.1 "fix" rfl).1,
   ((draft_export_single_retry oC8 refC8 dsC8).2.2.2.2.1 "fix" rfl).2.2 ⟨"g"⟩ rfl⟩

/-! ## C7: the capture scope restores global state -/

/-- Emitting records never changes the handler's saved prior flag. -/
theorem foldl_emit_prev (recs : List StructuredRecord) :
    ∀ h : CaptureStructuredTrace,
      (recs.foldl CaptureStructuredTrace.emit h).prev_get_dtrace
        = h.prev_get_dtrace := by
  induction recs with
  | nil => intro h; rfl
  | cons r rs ih => intro h; exact ih (h.emit r)

/-- C7: entering the capture scope saves the prior value of the process-wide
verbosity flag (`GET_DTRACE_STRUCTURED`) and registers the listener on the log
channel; exiting the scope — on every exit path, including when the
instrumented body raises, since the body below may return any `Except`
outcome and may mutate the flag arbitrarily — restores the saved flag value
and removes the listener. -/
theorem capture_scope_restores {ε α : Type} (hid : Nat)
    (h : CaptureStructuredTrace) (g : TraceGlobalState)
    (body : TraceGlobalState → TraceGlobalState × List StructuredRecord × Except ε α)
    (hhid : hid ∉ g.handlers)
    (hbody : ∀ s, (body s).1.handlers = s.handlers) :
    ((captureEnter hid h g).1.prev_get_dtrace = g.get_dtrace_structured
        ∧ (captureEnter hid h g).2.get_dtrace_structured = true
        ∧ hid ∈ (captureEnter hid h g).2.handlers)
      ∧ (withCapture hid h g body).2.1.get_dtrace_structured
          = g.get_dtrace_structured
      ∧ (withCapture hid h g body).2.1.handlers = g.handlers
      ∧ hid ∉ (withCapture hid h g body).2.1.handlers := by
  have hmem : hid ∈ addHandler g.handlers hid := by
    unfold addHandler
    split
    · assumption
    · exact List.mem_append_right _ (by simp)
  have hhandlers : (withCapture hid h g body).2.1.handlers = g.handlers := by
    show removeHandler (body (captureEnter hid h g).2).1.handlers hid = g.handlers
    rw [removeHandler, hbody]
    show (addHandler g.handlers hid).erase hid = g.handlers
    rw [addHandler, if_neg hhid, List.erase_append_right _ hhid]
    simp
  refine ⟨⟨?_, ?_, hmem⟩, ?_, hhandlers, ?_⟩
  · rfl
  · rfl
  · show (List.foldl CaptureStructuredTrace.emit (captureEnter hid h g).1
        (body (captureEnter hid h g).2).2.1).prev_get_dtrace = g.get_dtrace_structured
    rw [foldl_emit_prev]
    rfl
  · rw [hhandlers]
    exact hhid

/-- Witness for C7: a body that flips the flag, emits a record, and raises
still leaves the flag and handler list restored. -/
theorem capture_scope_restores_witness :
    (withCapture 7 hC7 gC7 bodyC7).2.1.get_dtrace_structured
        = gC7.get_dtrace_structured
      ∧ (withCapture 7 hC7 gC7 bodyC7).2.1.handlers = gC7.handlers :=
  ⟨(capture_scope_restores 7 hC7 gC7 bodyC7 (by decide) (fun _ => rfl)).2.1,
   (capture_scope_restores 7 hC7 gC7 bodyC7 (by decide) (fun _ => rfl)).2.2.1⟩

/-! ## C5: stack filtering -/

/-- Scanning skips a prefix of non-user frames, advancing the index. -/
theorem filterStackGo_append_skip (stf : List (String × String)) (tp : String)
    (stack : List StackFrame) (pre : List StackFrame) :
    ∀ (i : Nat) (l : List StackFrame),
      (∀ t ∈ pre, isUserFrame stf tp t = false) →
      filterStackGo stf tp stack i (pre ++ l)
        = filterStackGo stf tp stack (i + pre.length) l := by
  induction pre with
  | nil => intro i l _; simp
  | cons s rest ih =>
    intro i l hall
    have hs : isUserFrame stf tp s = false := hall s (by simp)
    simp only [List.cons_append, filterStackGo, hs, Bool.false_eq_true, if_false,
      List.append_eq]
    rw [ih (i + 1) l (fun t ht => hall t (by simp [ht]))]
    rw [show i + 1 + rest.length = i + (s :: rest).length from by
      simp [List.length_cons]
      omega]

/-- Scanning stops at the first user frame with the slice at that index. -/
theorem filterStackGo_hit (stf : List (String × String)) (tp : String)
    (stack : List StackFrame) (i : Nat) (s : StackFrame) (l : List StackFrame)
    (hs : isUserFrame stf tp s = true) :
    filterStackGo stf tp stack i (s :: l)
      = pySlice stack ((stack.length : Int) - (i : Int) - 3)
          ((stack.length : Int) - (i : Int)) := by
  simp [filterStackGo, hs]

/-- When at least 3 frames end at distance `i` from the end, the Python slice
`stack[len-i-3 : len-i]` is the window of 3 frames ending there. -/
theorem pySlice_eq_drop_take {α : Type} (l : List α) (i : Nat)
    (hle : 3 + i ≤ l.length) :
    pySlice l ((l.length : Int) - (i : Int) - 3) ((l.length : Int) - (i : Int))
      = (l.drop (l.length - i - 3)).take 3 := by
  have h1 : pyIndex l.length ((l.length : Int) - (i : Int) - 3)
      = l.length - i - 3 := by
    unfold pyIndex
    rw [if_neg (by omega)]
    omega
  have h2 : pyIndex l.length ((l.length : Int) - (i : Int)) = l.length - i := by
    unfold pyIndex
    rw [if_neg (by omega)]
    omega
  unfold pySlice
  rw [h1, h2]
  rw [show l.length - i = (l.length - i - 3) + 3 from by omega]
  rw [List.drop_take]
  congr 1
  omega

/-- C5 (amended): `filter_stack` scans the stack from the end for the last
frame that is interned and resolves outside the framework's directory (a
"user" frame).  If that frame sits at distance `pre.length` from the end and
at least 3 frames of the stack end at it, the result is the window of 3
consecutive frames of the original stack ending at (and including) that
frame — a window that may retain framework-internal frames; if no user frame
exists at all, the result is the trailing 3 frames (the whole stack when
shorter). -/
theorem filter_stack_window (stack pre post : List StackFrame)
    (s : StackFrame) (stf : List (String × String)) (tp : String) :
    (stack.reverse = pre ++ s :: post →
      (∀ t ∈ pre, isUserFrame stf tp t = false) →
      isUserFrame stf tp s = true →
      3 + pre.length ≤ stack.length →
      filter_stack stack stf tp
        = (stack.drop (stack.length - pre.length - 3)).take 3)
      ∧ ((∀ t ∈ stack, isUserFrame stf tp t = false) →
          filter_stack stack stf tp = stack.drop (stack.length - 3)) := by
  constructor
  · intro hsplit hpre hs hlen
    unfold filter_stack
    rw [hsplit, filterStackGo_append_skip stf tp stack pre 0 (s :: post) hpre]
    rw [filterStackGo_hit stf tp stack (0 + pre.length) s post hs]
    simp only [Nat.zero_add]
    exact pySlice_eq_drop_take stack pre.length hlen
  · intro hall
    unfold filter_stack
    rw [show stack.reverse = stack.reverse ++ [] from by simp]
    rw [filterStackGo_append_skip stf tp stack stack.reverse 0 []
      (fun t ht => hall t (List.mem_reverse.mp ht))]
    show pySlice stack (-3 : Int) (stack.length : Int) = _
    have h1 : pyIndex stack.length (-3 : Int) = stack.length - 3 := by
      unfold pyIndex
      rw [if_pos (by omega)]
      omega
    have h2 : pyIndex stack.length (stack.length : Int) = stack.length := by
      unfold pyIndex
      rw [if_neg (by omega)]
      simp
    unfold pySlice
    rw [h1, h2, List.take_length]

/-- Witness for the amended C5 on the concrete stack [user, internal, user]:
the last user frame is last in the stack and the window is the trailing 3
frames. -/
theorem filter_stack_window_witness :
    filter_stack [fU1, fI, fU2] stf0 tp0
      = (([fU1, fI, fU2] : List StackFrame).drop
          (([fU1, fI, fU2] : List StackFrame).length
            - ([] : List StackFrame).length - 3)).take 3 :=
  (filter_stack_window [fU1, fI, fU2] [] [fI, fU1] fU2 stf0 tp0).1
    (by decide) (by simp) (by decide) (by decide)

/-- C5 counterexample: on the stack [user, internal, user] with every frame
interned, `filter_stack` returns all three frames — the 3-frame window ending
at the *last user frame* — thereby *retaining* the framework-internal frame
`fI`; it does not drop internal frames nor keep "the last 3 user frames
before the last internal frame" (which would be `[fU1]`). -/
theorem filter_stack_keeps_internal_frame :
    filter_stack [fU1, fI, fU2] stf0 tp0 = [fU1, fI, fU2]
      ∧ fI ∈ filter_stack [fU1, fI, fU2] stf0 tp0
      ∧ List.lookup fI.filename stf0 = some "/torch/lib/x.py"
      ∧ strContains "/torch/lib/x.py" tp0 = true
      ∧ isUserFrame stf0 tp0 fI = false
      ∧ filter_stack [fU1, fI, fU2] stf0 tp0 ≠ [fU1] := by
  refine ⟨by decide, by decide, by decide, by decide, by decide, by decide⟩

/-! ## Classifier characterization: helper lemmas -/

/-- Record filters distribute over list append. -/
theorem ddRecords_append (xs ys : List FailureReport) :
    ddRecords (xs ++ ys) = ddRecords xs ++ ddRecords ys := by
  simp [ddRecords, List.filter_append]

/-- Kernel-record filter distributes over list append. -/
theorem kernelRecords_append (xs ys : List FailureReport) :
    kernelRecords (xs ++ ys) = kernelRecords xs ++ kernelRecords ys := by
  simp [kernelRecords, List.filter_append]

/-- A non-`propagate_real_tensors` event contributes nothing to the filtered
propagate contents. -/
theorem propFiltered_cons_skip (stf : List (String × String)) (tp : String)
    (ev : Event) (rest : List Event) (h : ¬(ev.1 = "propagate_real_tensors")) :
    propFiltered stf tp (ev :: rest) = propFiltered stf tp rest := by
  simp [propFiltered, List.filter_cons, h]

/-- A `propagate_real_tensors` event contributes its filtered contents. -/
theorem propFiltered_cons_prop (stf : List (String × String)) (tp : String)
    (c : LogContents) (rest : List Event) :
    propFiltered stf tp (("propagate_real_tensors", c) :: rest)
      = { c with stack := filter_stack c.stack stf tp }
          :: propFiltered stf tp rest := by
  simp [propFiltered, List.filter_cons]

/-- Hash-list variant of `propFiltered_cons_skip`. -/
theorem propHashes_cons_skip (stf : List (String × String)) (tp : String)
    (ev : Event) (rest : List Event) (h : ¬(ev.1 = "propagate_real_tensors")) :
    propHashes stf tp (ev :: rest) = propHashes stf tp rest := by
  simp [propHashes, propFiltered_cons_skip stf tp ev rest h]

/-- Hash-list variant of `propFiltered_cons_prop`. -/
theorem propHashes_cons_prop (stf : List (String × String)) (tp : String)
    (c : LogContents) (rest : List Event) :
    propHashes stf tp (("propagate_real_tensors", c) :: rest)
      = hash_stack (filter_stack c.stack stf tp) :: propHashes stf tp rest := by
  simp [propHashes, propFiltered_cons_prop stf tp c rest]

/-- Unfolding lemma for the counter bump. -/
theorem bumpCount_apply (cnt : String → Nat) (h k : String) :
    bumpCount cnt h k = if k = h then cnt k + 1 else cnt k := rfl

/-- Full characterization of the classifier loop from an arbitrary starting
state: the data-dependent records appended are the first occurrences by
filtered-stack hash relative to the incoming counter, the counter increases by
the per-hash event count, the kernel records appended are the first
occurrences by op key relative to the incoming key set, and the key set ends
as `opsAfter`. -/
theorem classifyList_char (stf : List (String × String)) (tp : String)
    (ns : Option DynShapes) :
    ∀ (evs : List Event) (st st' : ClassifyState),
      classifyList stf tp ns st evs = Except.ok st' →
      ddRecords st'.failures
          = ddRecords st.failures
              ++ (ddFirsts st.ddl (propFiltered stf tp evs)).map mkDD
        ∧ (∀ k, st'.ddl k = st.ddl k + (propHashes stf tp evs).count k)
        ∧ kernelRecords st'.failures
            = kernelRecords st.failures ++ opFirsts st.custom_ops evs
        ∧ st'.custom_ops = opsAfter st.custom_ops evs := by
  intro evs
  induction evs with
  | nil =>
    intro st st' h
    have hst : st = st' := by simpa [classifyList] using h
    subst hst
    simp [propFiltered, propHashes, ddFirsts, opFirsts, opsAfter]
  | cons ev rest ih =>
    intro st st' h
    obtain ⟨k, c⟩ := ev
    simp only [classifyList] at h
    split at h
    next e heq => exact absurd h (by simp)
    next st1 hstep =>
    obtain ⟨ih1, ih2, ih3, ih4⟩ := ih st1 st' h
    by_cases h1 : k = "propagate_real_tensors"
    · subst h1
      simp only [classifyStep, String.reduceEq, reduceIte] at hstep
      split at hstep
      next hgt =>
        injection hstep with hst1
        subst hst1
        refine ⟨?_, ?_, ?_, ?_⟩
        · rw [ih1, propFiltered_cons_prop]
          simp only [ddFirsts, hgt, if_true]
        · intro k'
          rw [ih2 k', propHashes_cons_prop]
          simp only [bumpCount_apply, List.count_cons]
          by_cases hk : k' = hash_stack (filter_stack c.stack stf tp)
          · simp [hk]
            omega
          · simp [hk, Ne.symm hk]
        · rw [ih3]
          simp [opFirsts, String.reduceEq]
        · rw [ih4]
          simp [opsAfter, String.reduceEq]
      next hgt =>
        injection hstep with hst1
        subst hst1
        refine ⟨?_, ?_, ?_, ?_⟩
        · rw [ih1, ddRecords_append, propFiltered_cons_prop]
          simp only [ddFirsts, hgt, if_false]
          simp [ddRecords, mkDD, List.append_assoc]
        · intro k'
          rw [ih2 k', propHashes_cons_prop]
          simp only [bumpCount_apply, List.count_cons]
          by_cases hk : k' = hash_stack (filter_stack c.stack stf tp)
          · simp [hk]
            omega
          · simp [hk, Ne.symm hk]
        · rw [ih3, kernelRecords_append]
          simp [opFirsts, kernelRecords, isKernelType, String.reduceEq]
        · rw [ih4]
          simp [opsAfter, String.reduceEq]
    by_cases h2 : k = "guard_added"
    · subst h2
      simp only [classifyStep, String.reduceEq, reduceIte] at hstep
      have hrest : propFiltered stf tp (("guard_added", c) :: rest)
          = propFiltered stf tp rest := propFiltered_cons_skip _ _ _ _ (by simp)
      have hrest2 : propHashes stf tp (("guard_added", c) :: rest)
          = propHashes stf tp rest := propHashes_cons_skip _ _ _ _ (by simp)
      have hops : opFirsts st.custom_ops (("guard_added", c) :: rest)
          = opFirsts st.custom_ops rest := by
        simp [opFirsts, String.reduceEq]
      have hops2 : opsAfter st.custom_ops (("guard_added", c) :: rest)
          = opsAfter st.custom_ops rest := by
        simp [opsAfter, String.reduceEq]
      cases ns with
      | none =>
        have hst1 : st = st1 := by simpa using hstep
        subst hst1
        exact ⟨by rw [ih1, hrest], fun k' => by rw [ih2 k', hrest2],
          by rw [ih3, hops], by rw [ih4, hops2]⟩
      | some n0 =>
        by_cases hs : c.symbol_to_sources.length = 0
        · have hst1 : st = st1 := by simpa [hs] using hstep
          subst hst1
          exact ⟨by rw [ih1, hrest], fun k' => by rw [ih2 k', hrest2],
            by rw [ih3, hops], by rw [ih4, hops2]⟩
        · have hst1 : ({ st with failures := st.failures ++ [⟨FailureType.CONSTRAINT_VIOLATION_ERROR, { c with stack := filter_stack c.stack stf tp, new_dynamic_shapes := some n0 }, false⟩] } : ClassifyState) = st1 := by
            simpa [hs] using hstep
          subst hst1
          refine ⟨?_, fun k' => by rw [ih2 k', hrest2], ?_, by rw [ih4, hops2]⟩
          · rw [ih1, hrest]
            simp [ddRecords, List.filter_append]
          · rw [ih3, hops]
            simp [kernelRecords, List.filter_append, isKernelType]
    by_cases h3 : k = "missing_fake_kernel"
    · subst h3
      simp only [classifyStep, String.reduceEq, reduceIte] at hstep
      have hrest : propFiltered stf tp (("missing_fake_kernel", c) :: rest)
          = propFiltered stf tp rest := propFiltered_cons_skip _ _ _ _ (by simp)
      have hrest2 : propHashes stf tp (("missing_fake_kernel", c) :: rest)
          = propHashes stf tp rest := propHashes_cons_skip _ _ _ _ (by simp)
      by_cases hmem : OpKey.op c.op ∈ st.custom_ops
      · have hst1 : st = st1 := by simpa [hmem] using hstep
        subst hst1
        refine ⟨by rw [ih1, hrest], fun k' => by rw [ih2 k', hrest2], ?_, ?_⟩
        · rw [ih3]
          simp [opFirsts, String.reduceEq, hmem]
        · rw [ih4]
          simp [opsAfter, String.reduceEq, hmem]
      · have hst1 : ({ st with custom_ops := st.custom_ops ++ [OpKey.op c.op], failures := st.failures ++ [⟨FailureType.MISSING_FAKE_KERNEL, c, false⟩] } : ClassifyState) = st1 := by
          simpa [hmem] using hstep
        subst hst1
        refine ⟨?_, fun k' => by rw [ih2 k', hrest2], ?_, ?_⟩
        · rw [ih1, hrest]
          simp [ddRecords, List.filter_append]
        · rw [ih3, kernelRecords_append]
          simp only [opFirsts, String.reduceEq, reduceIte, hmem, if_false]
          simp [kernelRecords, isKernelType, List.append_assoc]
        · rw [ih4]
          simp [opsAfter, String.reduceEq, hmem]
    by_cases h4 : k = "mismatched_fake_kernel"
    · subst h4
      simp only [classifyStep, String.reduceEq, reduceIte] at hstep
      have hrest : propFiltered stf tp (("mismatched_fake_kernel", c) :: rest)
          = propFiltered stf tp rest := propFiltered_cons_skip _ _ _ _ (by simp)
      have hrest2 : propHashes stf tp (("mismatched_fake_kernel", c) :: rest)
          = propHashes stf tp rest := propHashes_cons_skip _ _ _ _ (by simp)
      by_cases hmem : OpKey.opReason c.op c.reason ∈ st.custom_ops
      · have hst1 : st = st1 := by simpa [hmem] using hstep
        subst hst1
        refine ⟨by rw [ih1, hrest], fun k' => by rw [ih2 k', hrest2], ?_, ?_⟩
        · rw [ih3]
          simp [opFirsts, String.reduceEq, hmem]
        · rw [ih4]
          simp [opsAfter, String.reduceEq, hmem]
      · have hst1 : ({ st with custom_ops := st.custom_ops ++ [OpKey.opReason c.op c.reason], failures := st.failures ++ [⟨FailureType.MISMATCHED_FAKE_KERNEL, c, false⟩] } : ClassifyState) = st1 := by
          simpa [hmem] using hstep
        subst hst1
        refine ⟨?_, fun k' => by rw [ih2 k', hrest2], ?_, ?_⟩
        · rw [ih1, hrest]
          simp [ddRecords, List.filter_append]
        · rw [ih3, kernelRecords_append]
          simp only [opFirsts, String.reduceEq, reduceIte, hmem, if_false]
          simp [kernelRecords, isKernelType, List.append_assoc]
        · rw [ih4]
          simp [opsAfter, String.reduceEq, hmem]
    exact absurd hstep (by simp [classifyStep, h1, h2, h3, h4])

/-! ## Deduplication lemmas -/

/-- Membership in `dedupFirst`: exactly the unseen elements of the list. -/
theorem dedupFirst_mem {α : Type} [DecidableEq α] (l : List α) :
    ∀ (seen : List α) (a : α),
      a ∈ dedupFirst seen l ↔ a ∈ l ∧ a ∉ seen := by
  induction l with
  | nil => intro seen a; simp [dedupFirst]
  | cons b bs ih =>
    intro seen a
    by_cases hb : b ∈ seen
    · rw [show dedupFirst seen (b :: bs) = dedupFirst seen bs from by
        simp [dedupFirst, hb]]
      rw [ih]
      simp only [List.mem_cons]
      constructor
      · rintro ⟨h1, h2⟩
        exact ⟨Or.inr h1, h2⟩
      · rintro ⟨h | h, hns⟩
        · subst h
          exact absurd hb hns
        · exact ⟨h, hns⟩
    · rw [show dedupFirst seen (b :: bs) = b :: dedupFirst (seen ++ [b]) bs from by
        simp [dedupFirst, hb]]
      simp only [List.mem_cons, ih, List.mem_append, List.mem_singleton]
      constructor
      · rintro (rfl | ⟨h1, h2⟩)
        · exact ⟨Or.inl rfl, hb⟩
        · exact ⟨Or.inr h1, fun hs => h2 (Or.inl hs)⟩
      · rintro ⟨h | h1, hns⟩
        · exact Or.inl h
        · by_cases ha : a = b
          · exact Or.inl ha
          · refine Or.inr ⟨h1, ?_⟩
            simp [ha, hns]

/-- `dedupFirst` never repeats an element. -/
theorem dedupFirst_nodup {α : Type} [DecidableEq α] (l : List α) :
    ∀ seen : List α, (dedupFirst seen l).Nodup := by
  induction l with
  | nil => intro seen; simp [dedupFirst]
  | cons b bs ih =>
    intro seen
    by_cases hb : b ∈ seen
    · rw [show dedupFirst seen (b :: bs) = dedupFirst seen bs from by
        simp [dedupFirst, hb]]
      exact ih seen
    · rw [show dedupFirst seen (b :: bs) = b :: dedupFirst (seen ++ [b]) bs from by
        simp [dedupFirst, hb]]
      refine List.nodup_cons.mpr ⟨fun hmem => ?_, ih (seen ++ [b])⟩
      have := (dedupFirst_mem bs (seen ++ [b]) b).mp hmem
      exact this.2 (by simp)

/-- The hash list of `ddFirsts` is the first-occurrence dedup of the hash
list, provided the counter agrees with the seen set. -/
theorem ddFirsts_hashes (cs : List LogContents) :
    ∀ (cnt : String → Nat) (seen : List String),
      (∀ k, 0 < cnt k ↔ k ∈ seen) →
      (ddFirsts cnt cs).map (fun c => hash_stack c.stack)
        = dedupFirst seen (cs.map (fun c => hash_stack c.stack)) := by
  induction cs with
  | nil => intro cnt seen _; simp [ddFirsts, dedupFirst]
  | cons c cs ih =>
    intro cnt seen hinv
    by_cases hb : hash_stack c.stack ∈ seen
    · have hcond : bumpCount cnt (hash_stack c.stack) (hash_stack c.stack) > 1 := by
        rw [bumpCount_apply, if_pos rfl]
        have := (hinv (hash_stack c.stack)).mpr hb
        omega
      have hinv2 : ∀ k, 0 < bumpCount cnt (hash_stack c.stack) k ↔ k ∈ seen := by
        intro k
        rw [bumpCount_apply]
        by_cases hk : k = hash_stack c.stack
        · subst hk
          simp [hb]
        · simp [hk, hinv k]
      rw [show ddFirsts cnt (c :: cs)
            = ddFirsts (bumpCount cnt (hash_stack c.stack)) cs from by
          simp [ddFirsts, hcond]]
      rw [List.map_cons]
      rw [show dedupFirst seen (hash_stack c.stack :: cs.map (fun c => hash_stack c.stack))
            = dedupFirst seen (cs.map (fun c => hash_stack c.stack)) from by
          simp [dedupFirst, hb]]
      exact ih _ _ hinv2
    · have hcond : ¬(bumpCount cnt (hash_stack c.stack) (hash_stack c.stack) > 1) := by
        rw [bumpCount_apply, if_pos rfl]
        have h0 : ¬(0 < cnt (hash_stack c.stack)) := fun hgt => hb ((hinv _).mp hgt)
        omega
      have hinv2 : ∀ k, 0 < bumpCount cnt (hash_stack c.stack) k
          ↔ k ∈ seen ++ [hash_stack c.stack] := by
        intro k
        rw [bumpCount_apply]
        by_cases hk : k = hash_stack c.stack
        · subst hk
          simp
        · simp [hk, hinv k]
      rw [show ddFirsts cnt (c :: cs)
            = c :: ddFirsts (bumpCount cnt (hash_stack c.stack)) cs from by
          simp [ddFirsts, hcond]]
      rw [List.map_cons, List.map_cons]
      rw [show dedupFirst seen (hash_stack c.stack :: cs.map (fun c => hash_stack c.stack))
            = hash_stack c.stack
                :: dedupFirst (seen ++ [hash_stack c.stack]) (cs.map (fun c => hash_stack c.stack)) from by
          simp [dedupFirst, hb]]
      rw [ih _ _ hinv2]

/-- A missing-kernel key is in the key set iff its op is among the seen ops. -/
theorem opKey_op_mem (ops : List OpKey) (s : String) :
    OpKey.op s ∈ ops ↔ s ∈ missingSeen ops := by
  induction ops with
  | nil => simp [missingSeen]
  | cons k rest ih =>
    cases k with
    | op t => simp [missingSeen, List.filterMap_cons, ih]
    | opReason t r => simp [missingSeen, List.filterMap_cons, ih]

/-- A mismatched-kernel key is in the key set iff its (op, reason) pair is
among the seen pairs. -/
theorem opKey_opReason_mem (ops : List OpKey) (s r : String) :
    OpKey.opReason s r ∈ ops ↔ (s, r) ∈ mismatchedSeen ops := by
  induction ops with
  | nil => simp [mismatchedSeen]
  | cons k rest ih =>
    cases k with
    | op t => simp [mismatchedSeen, List.filterMap_cons, ih]
    | opReason t u => simp [mismatchedSeen, List.filterMap_cons, ih, Prod.ext_iff]

/-- `missingSeen` distributes over key-set append. -/
theorem missingSeen_append (ops ops2 : List OpKey) :
    missingSeen (ops ++ ops2) = missingSeen ops ++ missingSeen ops2 := by
  simp [missingSeen, List.filterMap_append]

/-- `mismatchedSeen` distributes over key-set append. -/
theorem mismatchedSeen_append (ops ops2 : List OpKey) :
    mismatchedSeen (ops ++ ops2) = mismatchedSeen ops ++ mismatchedSeen ops2 := by
  simp [mismatchedSeen, List.filterMap_append]

/-- The op list of the missing-kernel records of `opFirsts` is the
first-occurrence dedup of the missing-event ops. -/
theorem opFirsts_missing (evs : List Event) :
    ∀ ops : List OpKey,
      (missingRecords (opFirsts ops evs)).map (fun f => f.data.op)
        = dedupFirst (missingSeen ops) (missingEvOps evs) := by
  induction evs with
  | nil => intro ops; simp [opFirsts, missingRecords, missingEvOps, dedupFirst]
  | cons ev rest ih =>
    intro ops
    obtain ⟨k, c⟩ := ev
    by_cases h1 : k = "missing_fake_kernel"
    · subst h1
      have hev : missingEvOps (("missing_fake_kernel", c) :: rest)
          = c.op :: missingEvOps rest := by
        simp [missingEvOps, List.filter_cons]
      by_cases hmem : OpKey.op c.op ∈ ops
      · rw [show opFirsts ops (("missing_fake_kernel", c) :: rest)
              = opFirsts ops rest from by simp [opFirsts, hmem]]
        rw [ih ops, hev]
        rw [show dedupFirst (missingSeen ops) (c.op :: missingEvOps rest)
              = dedupFirst (missingSeen ops) (missingEvOps rest) from by
            simp [dedupFirst, (opKey_op_mem ops c.op).mp hmem]]
      · rw [show opFirsts ops (("missing_fake_kernel", c) :: rest)
              = ⟨FailureType.MISSING_FAKE_KERNEL, c, false⟩
                  :: opFirsts (ops ++ [OpKey.op c.op]) rest from by
            simp [opFirsts, hmem]]
        rw [show missingRecords (⟨FailureType.MISSING_FAKE_KERNEL, c, false⟩
                :: opFirsts (ops ++ [OpKey.op c.op]) rest)
              = ⟨FailureType.MISSING_FAKE_KERNEL, c, false⟩
                  :: missingRecords (opFirsts (ops ++ [OpKey.op c.op]) rest) from by
            simp [missingRecords, List.filter_cons]]
        rw [List.map_cons, ih (ops ++ [OpKey.op c.op]), hev]
        have hnotin : c.op ∉ missingSeen ops :=
          fun hm => hmem ((opKey_op_mem ops c.op).mpr hm)
        rw [show dedupFirst (missingSeen ops) (c.op :: missingEvOps rest)
              = c.op :: dedupFirst (missingSeen ops ++ [c.op]) (missingEvOps rest) from by
            simp [dedupFirst, hnotin]]
        rw [show missingSeen (ops ++ [OpKey.op c.op])
              = missingSeen ops ++ [c.op] from by
            simp [missingSeen_append, missingSeen, List.filterMap_cons]]
    · have hev : missingEvOps ((k, c) :: rest) = missingEvOps rest := by
        simp [missingEvOps, List.filter_cons, h1]
      by_cases h2 : k = "mismatched_fake_kernel"
      · subst h2
        by_cases hmem : OpKey.opReason c.op c.reason ∈ ops
        · rw [show opFirsts ops (("mismatched_fake_kernel", c) :: rest)
                = opFirsts ops rest from by simp [opFirsts, hmem]]
          rw [ih ops, hev]
        · rw [show opFirsts ops (("mismatched_fake_kernel", c) :: rest)
                = ⟨FailureType.MISMATCHED_FAKE_KERNEL, c, false⟩
                    :: opFirsts (ops ++ [OpKey.opReason c.op c.reason]) rest from by
              simp [opFirsts, hmem]]
          rw [show missingRecords (⟨FailureType.MISMATCHED_FAKE_KERNEL, c, false⟩
                  :: opFirsts (ops ++ [OpKey.opReason c.op c.reason]) rest)
                = missingRecords (opFirsts (ops ++ [OpKey.opReason c.op c.reason]) rest) from by
              simp [missingRecords, List.filter_cons]]
          rw [ih (ops ++ [OpKey.opReason c.op c.reason]), hev]
          rw [show missingSeen (ops ++ [OpKey.opReason c.op c.reason])
                = missingSeen ops from by
              simp [missingSeen_append, missingSeen, List.filterMap_cons]]
      · rw [show opFirsts ops ((k, c) :: rest) = opFirsts ops rest from by
            simp [opFirsts, h1, h2]]
        rw [ih ops, hev]

/-- The (op, reason) list of the mismatched-kernel records of `opFirsts` is
the first-occurrence dedup of the mismatched-event pairs. -/
theorem opFirsts_mismatched (evs : List Event) :
    ∀ ops : List OpKey,
      (mismatchedRecords (opFirsts ops evs)).map (fun f => (f.data.op, f.data.reason))
        = dedupFirst (mismatchedSeen ops) (mismatchedEvKeys evs) := by
  induction evs with
  | nil => intro ops; simp [opFirsts, mismatchedRecords, mismatchedEvKeys, dedupFirst]
  | cons ev rest ih =>
    intro ops
    obtain ⟨k, c⟩ := ev
    by_cases h1 : k = "mismatched_fake_kernel"
    · subst h1
      have hev : mismatchedEvKeys (("mismatched_fake_kernel", c) :: rest)
          = (c.op, c.reason) :: mismatchedEvKeys rest := by
        simp [mismatchedEvKeys, List.filter_cons]
      by_cases hmem : OpKey.opReason c.op c.reason ∈ ops
      · rw [show opFirsts ops (("mismatched_fake_kernel", c) :: rest)
              = opFirsts ops rest from by simp [opFirsts, hmem]]
        rw [ih ops, hev]
        rw [show dedupFirst (mismatchedSeen ops) ((c.op, c.reason) :: mismatchedEvKeys rest)
              = dedupFirst (mismatchedSeen ops) (mismatchedEvKeys rest) from by
            simp [dedupFirst, (opKey_opReason_mem ops c.op c.reason).mp hmem]]
      · rw [show opFirsts ops (("mismatched_fake_kernel", c) :: rest)
              = ⟨FailureType.MISMATCHED_FAKE_KERNEL, c, false⟩
                  :: opFirsts (ops ++ [OpKey.opReason c.op c.reason]) rest from by
            simp [opFirsts, hmem]]
        rw [show mismatchedRecords (⟨FailureType.MISMATCHED_FAKE_KERNEL, c, false⟩
                :: opFirsts (ops ++ [OpKey.opReason c.op c.reason]) rest)
              = ⟨FailureType.MISMATCHED_FAKE_KERNEL, c, false⟩
                  :: mismatchedRecords (opFirsts (ops ++ [OpKey.opReason c.op c.reason]) rest) from by
            simp [mismatchedRecords, List.filter_cons]]
        rw [List.map_cons, ih (ops ++ [OpKey.opReason c.op c.reason]), hev]
        have hnotin : (c.op, c.reason) ∉ mismatchedSeen ops :=
          fun hm => hmem ((opKey_opReason_mem ops c.op c.reason).mpr hm)
        rw [show dedupFirst (mismatchedSeen ops) ((c.op, c.reason) :: mismatchedEvKeys rest)
              = (c.op, c.reason)
                  :: dedupFirst (mismatchedSeen ops ++ [(c.op, c.reason)]) (mismatchedEvKeys rest) from by
            simp [dedupFirst, hnotin]]
        rw [show mismatchedSeen (ops ++ [OpKey.opReason c.op c.reason])
              = mismatchedSeen ops ++ [(c.op, c.reason)] from by
            simp [mismatchedSeen_append, mismatchedSeen, List.filterMap_cons]]
    · have hev : mismatchedEvKeys ((k, c) :: rest) = mismatchedEvKeys rest := by
        simp [mismatchedEvKeys, List.filter_cons, h1]
      by_cases h2 : k = "missing_fake_kernel"
      · subst h2
        by_cases hmem : OpKey.op c.op ∈ ops
        · rw [show opFirsts ops (("missing_fake_kernel", c) :: rest)
                = opFirsts ops rest from by simp [opFirsts, hmem]]
          rw [ih ops, hev]
        · rw [show opFirsts ops (("missing_fake_kernel", c) :: rest)
                = ⟨FailureType.MISSING_FAKE_KERNEL, c, false⟩
                    :: opFirsts (ops ++ [OpKey.op c.op]) rest from by
              simp [opFirsts, hmem]]
          rw [show mismatchedRecords (⟨FailureType.MISSING_FAKE_KERNEL, c, false⟩
                  :: opFirsts (ops ++ [OpKey.op c.op]) rest)
                = mismatchedRecords (opFirsts (ops ++ [OpKey.op c.op]) rest) from by
              simp [mismatchedRecords, List.filter_cons]]
          rw [ih (ops ++ [OpKey.op c.op]), hev]
          rw [show mismatchedSeen (ops ++ [OpKey.op c.op])
                = mismatchedSeen ops from by
              simp [mismatchedSeen_append, mismatchedSeen, List.filterMap_cons]]
      · rw [show opFirsts ops ((k, c) :: rest) = opFirsts ops rest from by
            simp [opFirsts, h1, h2]]
        rw [ih ops, hev]

/-! ## Backfill lemmas -/

/-- The backfill pass rewrites exactly the data-dependent records, setting
their `occurrences` to the final per-hash count. -/
theorem ddRecords_backfill (ddl : String → Nat) (fs : List FailureReport) :
    ddRecords (backfillOccurrences ddl fs)
      = (ddRecords fs).map
          (fun f => { f with data :=
            { f.data with occurrences := ddl (hash_stack f.data.stack) } }) := by
  induction fs with
  | nil => rfl
  | cons f rest ih =>
    by_cases hf : f.failure_type = FailureType.DATA_DEPENDENT_ERROR
    · simp [backfillOccurrences, ddRecords, List.filter_cons, hf] at ih ⊢
      exact ih
    · simp [backfillOccurrences, ddRecords, List.filter_cons, hf] at ih ⊢
      exact ih

/-- The backfill pass leaves missing-kernel records untouched. -/
theorem missingRecords_backfill (ddl : String → Nat) (fs : List FailureReport) :
    missingRecords (backfillOccurrences ddl fs) = missingRecords fs := by
  induction fs with
  | nil => rfl
  | cons f rest ih =>
    by_cases hf : f.failure_type = FailureType.DATA_DEPENDENT_ERROR
    · simp [backfillOccurrences, missingRecords, List.filter_cons, hf] at ih ⊢
      exact ih
    · simp [backfillOccurrences, missingRecords, List.filter_cons, hf] at ih ⊢
      by_cases hm : f.failure_type = FailureType.MISSING_FAKE_KERNEL <;>
        simp [hm, ih]

/-- The backfill pass leaves mismatched-kernel records untouched. -/
theorem mismatchedRecords_backfill (ddl : String → Nat) (fs : List FailureReport) :
    mismatchedRecords (backfillOccurrences ddl fs) = mismatchedRecords fs := by
  induction fs with
  | nil => rfl
  | cons f rest ih =>
    by_cases hf : f.failure_type = FailureType.DATA_DEPENDENT_ERROR
    · simp [backfillOccurrences, mismatchedRecords, List.filter_cons, hf] at ih ⊢
      exact ih
    · simp [backfillOccurrences, mismatchedRecords, List.filter_cons, hf] at ih ⊢
      by_cases hm : f.failure_type = FailureType.MISMATCHED_FAKE_KERNEL <;>
        simp [hm, ih]

/-- The backfill pass leaves kernel-related records untouched. -/
theorem kernelRecords_backfill (ddl : String → Nat) (fs : List FailureReport) :
    kernelRecords (backfillOccurrences ddl fs) = kernelRecords fs := by
  induction fs with
  | nil => rfl
  | cons f rest ih =>
    by_cases hf : f.failure_type = FailureType.DATA_DEPENDENT_ERROR
    · simp [backfillOccurrences, kernelRecords, List.filter_cons, hf, isKernelType] at ih ⊢
      exact ih
    · simp [backfillOccurrences, kernelRecords, List.filter_cons, hf] at ih ⊢
      by_cases hm : isKernelType f.failure_type = true <;>
        simp [hm, ih]

/-- Filtering for missing-kernel records factors through the kernel filter. -/
theorem missingRecords_kernelRecords (fs : List FailureReport) :
    missingRecords (kernelRecords fs) = missingRecords fs := by
  induction fs with
  | nil => rfl
  | cons f rest ih =>
    by_cases hk : isKernelType f.failure_type = true
    · rw [show kernelRecords (f :: rest) = f :: kernelRecords rest from by
        simp [kernelRecords, List.filter_cons, hk]]
      by_cases hm : f.failure_type = FailureType.MISSING_FAKE_KERNEL
      · rw [show missingRecords (f :: kernelRecords rest)
              = f :: missingRecords (kernelRecords rest) from by
            simp [missingRecords, List.filter_cons, hm]]
        rw [show missingRecords (f :: rest) = f :: missingRecords rest from by
            simp [missingRecords, List.filter_cons, hm]]
        rw [ih]
      · rw [show missingRecords (f :: kernelRecords rest)
              = missingRecords (kernelRecords rest) from by
            simp [missingRecords, List.filter_cons, hm]]
        rw [show missingRecords (f :: rest) = missingRecords rest from by
            simp [missingRecords, List.filter_cons, hm]]
        exact ih
    · have hm : ¬(f.failure_type = FailureType.MISSING_FAKE_KERNEL) := by
        intro hc
        exact hk (by simp [isKernelType, hc])
      rw [show kernelRecords (f :: rest) = kernelRecords rest from by
        simp [kernelRecords, List.filter_cons, hk]]
      rw [show missingRecords (f :: rest) = missingRecords rest from by
        simp [missingRecords, List.filter_cons, hm]]
      exact ih

/-- Filtering for mismatched-kernel records factors through the kernel filter. -/
theorem mismatchedRecords_kernelRecords (fs : List FailureReport) :
    mismatchedRecords (kernelRecords fs) = mismatchedRecords fs := by
  induction fs with
  | nil => rfl
  | cons f rest ih =>
    by_cases hk : isKernelType f.failure_type = true
    · rw [show kernelRecords (f :: rest) = f :: kernelRecords rest from by
        simp [kernelRecords, List.filter_cons, hk]]
      by_cases hm : f.failure_type = FailureType.MISMATCHED_FAKE_KERNEL
      · rw [show mismatchedRecords (f :: kernelRecords rest)
              = f :: mismatchedRecords (kernelRecords rest) from by
            simp [mismatchedRecords, List.filter_cons, hm]]
        rw [show mismatchedRecords (f :: rest) = f :: mismatchedRecords rest from by
            simp [mismatchedRecords, List.filter_cons, hm]]
        rw [ih]
      · rw [show mismatchedRecords (f :: kernelRecords rest)
              = mismatchedRecords (kernelRecords rest) from by
            simp [mismatchedRecords, List.filter_cons, hm]]
        rw [show mismatchedRecords (f :: rest) = mismatchedRecords rest from by
            simp [mismatchedRecords, List.filter_cons, hm]]
        exact ih
    · have hm : ¬(f.failure_type = FailureType.MISMATCHED_FAKE_KERNEL) := by
        intro hc
        exact hk (by simp [isKernelType, hc])
      rw [show kernelRecords (f :: rest) = kernelRecords rest from by
        simp [kernelRecords, List.filter_cons, hk]]
      rw [show mismatchedRecords (f :: rest) = mismatchedRecords rest from by
        simp [mismatchedRecords, List.filter_cons, hm]]
      exact ih

/-! ## C2: deduplication of data-dependent errors -/

/-- C2: for every captured event sequence, all `propagate_real_tensors` events
with identical filtered stacks (identity as computed by `hash_stack`) produce
exactly one `DataDependentError` record — built from the first occurrence, in
first-occurrence order — and after the full classification pass (including the
backfill) that record's `occurrences` payload field equals the total number of
such events: the record list restricted to data-dependent records equals the
documented `ddSpecRecords`, its hash list is the first-occurrence dedup of the
event hash list with no duplicates, every event hash shows up in exactly one
record, and each record's count is the per-hash event count. -/
theorem propagate_real_tensors_dedup (stf : List (String × String)) (tp : String)
    (ns : Option DynShapes) (logs : List Event) (report : DraftExportReport)
    (h : draftExportClassify stf tp ns logs = Except.ok report) :
    ddRecords report.failures = ddSpecRecords stf tp logs
      ∧ (ddRecords report.failures).map recHash
          = dedupFirst [] (propHashes stf tp logs)
      ∧ ((ddRecords report.failures).map recHash).Nodup
      ∧ (∀ k, k ∈ (ddRecords report.failures).map recHash
          ↔ k ∈ propHashes stf tp logs)
      ∧ ∀ f ∈ ddRecords report.failures,
          f.data.occurrences = (propHashes stf tp logs).count (recHash f) := by
  unfold draftExportClassify at h
  split at h
  next e heq => exact absurd h (by simp)
  next st hok =>
  injection h with hrep
  subst hrep
  obtain ⟨ch1, ch2, _, _⟩ :=
    classifyList_char stf tp ns logs ⟨[], [], fun _ => 0⟩ st hok
  have ch1' : ddRecords st.failures
      = (ddFirsts zeroCnt (propFiltered stf tp logs)).map mkDD := by
    simpa [ddRecords, zeroCnt] using ch1
  have ch2' : ∀ k, st.ddl k = (propHashes stf tp logs).count k := by
    intro k
    simpa using ch2 k
  have hmain : ddRecords (backfillOccurrences st.ddl st.failures)
      = ddSpecRecords stf tp logs := by
    rw [ddRecords_backfill, ch1', List.map_map]
    show _ = (ddFirsts zeroCnt (propFiltered stf tp logs)).map _
    congr 1
    funext c
    simp [mkDD, Function.comp, ch2']
  have hhash : (ddRecords (backfillOccurrences st.ddl st.failures)).map recHash
      = dedupFirst [] (propHashes stf tp logs) := by
    rw [hmain]
    show ((ddFirsts zeroCnt (propFiltered stf tp logs)).map _).map recHash = _
    rw [List.map_map]
    have hfun : (recHash ∘ fun c => mkDD
        { c with occurrences := (propHashes stf tp logs).count (hash_stack c.stack) })
        = fun c : LogContents => hash_stack c.stack := by
      funext c
      rfl
    rw [hfun]
    have hz : ∀ k, 0 < zeroCnt k ↔ k ∈ ([] : List String) := by
      simp [zeroCnt]
    rw [ddFirsts_hashes (propFiltered stf tp logs) zeroCnt [] hz]
    rfl
  refine ⟨hmain, hhash, ?_, ?_, ?_⟩
  · rw [hhash]
    exact dedupFirst_nodup _ _
  · intro k
    rw [hhash, dedupFirst_mem]
    simp
  · intro f hf
    rw [hmain] at hf
    obtain ⟨c, hc, rfl⟩ := List.mem_map.mp hf
    rfl

/-- Witness for C2: two equivalent `propagate_real_tensors` events yield
exactly one record whose `occurrences` field equals 2. -/
theorem propagate_real_tensors_dedup_witness :
    ddRecords rep0.failures = ddSpecRecords [] tp0 logs0
      ∧ rep0.failures
          = [⟨FailureType.DATA_DEPENDENT_ERROR,
              { expr := "u0", result := "1", occurrences := 2 }, false⟩] :=
  ⟨(propagate_real_tensors_dedup [] tp0 none logs0 rep0 rfl).1, rfl⟩

/-! ## C4: deduplication of kernel failures -/

/-- C4: for every captured event sequence, `missing_fake_kernel` events are
deduplicated by operator identifier — the first event for an operator yields
one `MissingFakeKernel` record carrying that event's contents untouched (no
occurrence counting) and later events for the same operator are dropped —
while `mismatched_fake_kernel` events are deduplicated by the
(operator, reason) pair, so equal ops with different reasons yield distinct
records: the kernel records equal the documented `opFirsts` spec, the missing
ops are the first-occurrence dedup of the missing-event ops, and the
mismatched key pairs are the first-occurrence dedup of the mismatched-event
pairs. -/
theorem kernel_records_dedup (stf : List (String × String)) (tp : String)
    (ns : Option DynShapes) (logs : List Event) (report : DraftExportReport)
    (h : draftExportClassify stf tp ns logs = Except.ok report) :
    kernelRecords report.failures = opFirsts [] logs
      ∧ (missingRecords report.failures).map (fun f => f.data.op)
          = dedupFirst [] (missingEvOps logs)
      ∧ (mismatchedRecords report.failures).map (fun f => (f.data.op, f.data.reason))
          = dedupFirst [] (mismatchedEvKeys logs) := by
  unfold draftExportClassify at h
  split at h
  next e heq => exact absurd h (by simp)
  next st hok =>
  injection h with hrep
  subst hrep
  obtain ⟨_, _, ch3, _⟩ :=
    classifyList_char stf tp ns logs ⟨[], [], fun _ => 0⟩ st hok
  have ch3' : kernelRecords st.failures = opFirsts [] logs := by
    simpa [kernelRecords] using ch3
  refine ⟨?_, ?_, ?_⟩
  · show kernelRecords (backfillOccurrences st.ddl st.failures) = _
    rw [kernelRecords_backfill, ch3']
  · show (missingRecords (backfillOccurrences st.ddl st.failures)).map _ = _
    rw [missingRecords_backfill, ← missingRecords_kernelRecords, ch3',
      opFirsts_missing logs []]
    rfl
  · show (mismatchedRecords (backfillOccurrences st.ddl st.failures)).map _ = _
    rw [mismatchedRecords_backfill, ← mismatchedRecords_kernelRecords, ch3',
      opFirsts_mismatched logs []]
    rfl

/-- Witness for C4: two missing events for the same op yield one record, and
three mismatched events with keys (op,r1), (op,r2), (op,r1) yield two
distinct records. -/
theorem kernel_records_dedup_witness :
    kernelRecords rep1.failures = opFirsts [] logs1
      ∧ (missingRecords rep1.failures).map (fun f => f.data.op)
          = dedupFirst [] (missingEvOps logs1)
      ∧ (mismatchedRecords rep1.failures).map (fun f => (f.data.op, f.data.reason))
          = dedupFirst [] (mismatchedEvKeys logs1) :=
  ⟨(kernel_records_dedup [] tp0 none logs1 rep1 rfl).1,
   (kernel_records_dedup [] tp0 none logs1 rep1 rfl).2.1,
   (kernel_records_dedup [] tp0 none logs1 rep1 rfl).2.2⟩

end DraftExport
